import Mathlib

/-!
# Verification of the Lex-BAR stats bot core (src/app/lex.py)

Shallow embedding of the data model and the operations of `src/app/lex.py`
(and the table declarations of `src/app/models.py`).

Modelling conventions:
* Python `float` skill values are modelled as `Rat` (the payloads carry plain
  decimal numbers; no NaN/inf arithmetic occurs in the modelled code paths).
* `datetime.utcnow()` is modelled by a `now : Nat` parameter supplied to each
  operation; `isoformat` is the identity on these abstract timestamps.
* JSON payloads handed back by the upstream API, and the Python dicts built
  from them, are modelled by the `PyVal` type together with the small
  vocabulary of operations the source uses on them (`dict.get`, truthiness,
  iteration, `==` against an int literal).  A raised Python exception is an
  `Except.error`.
* The database session is modelled as the list of `Player` rows in table
  order; `db.query(Player).filter(...).first()` is `List.find?`, and mutating
  the ORM object returned by `first()` is `modifyFirst`.  `discordId` is the
  table's primary key, so rows of a real session have pairwise distinct
  `discordId`s.
-/

/-- A Python/JSON value as navigated by `lex.py` (`None`, bools, numbers,
strings, lists, dicts).  Numbers are modelled as `Rat`. -/
inductive PyVal where
  | none
  | bool (b : Bool)
  | num (q : Rat)
  | str (s : String)
  | list (xs : List PyVal)
  | dict (kvs : List (String × PyVal))

/-- The Python exceptions that the modelled code can raise. -/
inductive PyErr where
  | attributeError
  | typeError
deriving DecidableEq

/-- First-match lookup in a dict's key/value list (Python dict keys are
unique, so first-match agrees with dict lookup). -/
def lookupKV : List (String × PyVal) → String → Option PyVal
  | [], _ => Option.none
  | (k', v) :: rest, k => if k' = k then some v else lookupKV rest k

/-- Python truthiness for the modelled values. -/
def PyVal.truthy : PyVal → Bool
  | .none => false
  | .bool b => b
  | .num q => q != 0
  | .str s => s != ""
  | .list xs => !xs.isEmpty
  | .dict kvs => !kvs.isEmpty

/-- `v.get(k)` (default `None`); raises `AttributeError` when `v` is not a
dict. -/
def PyVal.get1 : PyVal → String → Except PyErr PyVal
  | .dict kvs, k => .ok ((lookupKV kvs k).getD .none)
  | _, _ => .error .attributeError

/-- `v.get(k, d)`; raises `AttributeError` when `v` is not a dict. -/
def PyVal.get2 : PyVal → String → PyVal → Except PyErr PyVal
  | .dict kvs, k, d => .ok ((lookupKV kvs k).getD d)
  | _, _, _ => .error .attributeError

/-- `for x in v`: lists yield their elements, strings their characters,
dicts their keys; other values raise `TypeError`. -/
def PyVal.iterElems : PyVal → Except PyErr (List PyVal)
  | .list xs => .ok xs
  | .str s => .ok (s.toList.map fun c => PyVal.str (String.singleton c))
  | .dict kvs => .ok (kvs.map fun kv => PyVal.str kv.1)
  | _ => .error .typeError

/-- Python `v == n` against an int literal `n` (numbers compare by value,
`True`/`False` compare as `1`/`0`, everything else compares unequal). -/
def PyVal.eqNum : PyVal → Rat → Bool
  | .num q, r => q == r
  | .bool b, r => (if b then (1 : Rat) else 0) == r
  | _, _ => false

/-- The outcome of the HTTP exchange in `fetch_player_stats` (lex.py:201-207):
either some exception was raised inside the `try` (transport failure,
non-2xx status via `raise_for_status`, timeout, JSON decode error) — the
string is `str(e)` — or a decoded JSON body was obtained. -/
inductive HttpResp where
  | exn (msg : String)
  | body (data : PyVal)

/-- The `"player"` dict built at lex.py:220-226. -/
def mkPlayerDict (uid uname sk su lu : PyVal) : PyVal :=
  .dict [("userID", uid), ("username", uname), ("skill", sk),
         ("skillUncertainty", su), ("lastUpdated", lu)]

/-- The success dict built at lex.py:218-227. -/
def mkSuccess (uid uname sk su lu : PyVal) : PyVal :=
  .dict [("success", .bool true), ("player", mkPlayerDict uid uname sk su lu)]

/-- `{"success": True, "player": None}` (lex.py:229). -/
def notFoundResult : PyVal :=
  .dict [("success", .bool true), ("player", .none)]

/-- The `for s in skill_list` loop of lex.py:213-216: first entry whose
`"gamemode"` equals `3`; `s.get` raises on a non-dict entry. -/
def findLargeTeam : List PyVal → Except PyErr (Option PyVal)
  | [] => .ok Option.none
  | s :: rest =>
    match s.get1 "gamemode" with
    | .error e => .error e
    | .ok g => if g.eqNum 3 then .ok (some s) else findLargeTeam rest

/-- `fetch_player_stats` (lex.py:195-229), as a function of the outcome of
the HTTP exchange.  Everything after the `try` block is outside any handler,
so navigation errors there propagate to the caller (`Except.error`). -/
def fetch_player_stats (resp : HttpResp) : Except PyErr PyVal :=
  match resp with
  | .exn e => .ok (.dict [("success", .bool false), ("error", .str e)])
  | .body data =>
    match data with
    | .list (player :: _) =>
      match player with
      | .dict pkvs =>
        -- player.get("skill", []) or []
        let skillRaw := (lookupKV pkvs "skill").getD (.list [])
        let skill_list := if skillRaw.truthy then skillRaw else .list []
        let pget := fun k => (lookupKV pkvs k).getD .none
        match skill_list.iterElems with
        | .error e => .error e
        | .ok elems =>
          match findLargeTeam elems with
          | .error e => .error e
          | .ok (some lt) =>
            match lt with
            | .dict ltkvs =>
              let lget := fun k => (lookupKV ltkvs k).getD .none
              .ok (mkSuccess (pget "userID") (pget "username")
                    (lget "skill") (lget "skillUncertainty") (lget "lastUpdated"))
            | _ => .error .attributeError
          | .ok Option.none =>
            .ok (mkSuccess (pget "userID") (pget "username")
                  .none .none (pget "lastUpdated"))
      | _ => .error .attributeError
    | _ => .ok notFoundResult

/-- One row of table `LEX_PLAYERS` (models.py:7-16). -/
structure Player where
  discordId : Nat
  discordUsername : String
  barUsername : String
  registeredAt : Nat
  registeredBy : Option Nat
  skill : Option Rat
  skillUncertainty : Option Rat
  lastStatsUpdate : Option Nat
deriving DecidableEq

/-- The per-player payload prepared at lex.py:152-158. -/
structure PlayerData where
  discordId : Nat
  barUsername : String

/-- The result dict built by `update_single_player_stats` (lex.py:242-248). -/
structure UpdateResult where
  discordId : Nat
  barUsername : String
  skill : PyVal
  skillUncertainty : PyVal
  success : Bool

/-- Body of the `try` in `update_single_player_stats` (lex.py:235-251):
fetch, then test `result.get("success") and result.get("player")`, and build
the result dict from `result["player"]`. -/
def updBody (pd : PlayerData) (resp : HttpResp) : Except PyErr (Option UpdateResult) :=
  match fetch_player_stats resp with
  | .error e => .error e
  | .ok result =>
    match result.get1 "success", result.get1 "player" with
    | .ok s, .ok pl =>
      if s.truthy && pl.truthy then
        match pl.get1 "skill", pl.get1 "skillUncertainty" with
        | .ok sk, .ok su =>
          .ok (some { discordId := pd.discordId, barUsername := pd.barUsername,
                      skill := sk, skillUncertainty := su, success := true })
        | .error e, _ => .error e
        | _, .error e => .error e
      else .ok Option.none
    | .error e, _ => .error e
    | _, .error e => .error e

/-- `update_single_player_stats` (lex.py:232-254): the surrounding
`try/except` turns any raised exception into a `None` result. -/
def update_single_player_stats (pd : PlayerData) (resp : HttpResp) : Option UpdateResult :=
  match updBody pd resp with
  | .error _ => Option.none
  | .ok r => r

/-- An element of the `asyncio.gather(..., return_exceptions=True)` result
list (lex.py:165): a result dict, Python `None`, or a captured exception. -/
inductive GatherItem where
  | ok (u : UpdateResult)
  | pyNone
  | raised (msg : String)

/-- Injection of a task's return value into the gather result list. -/
def toItem : Option UpdateResult → GatherItem
  | some u => .ok u
  | Option.none => .pyNone

/-- Numeric payload values become `Float` columns when assigned to the ORM
row; `None` stays NULL.  (Non-numeric payloads would fail at commit and are
outside the modelled value range.) -/
def pyToOptRat : PyVal → Option Rat
  | .num q => some q
  | _ => Option.none

/-- Mutate the first row satisfying `pred` (the row returned by
`.filter(...).first()`), leaving the rest of the session unchanged. -/
def modifyFirst (pred : Player → Bool) (f : Player → Player) : List Player → List Player
  | [] => []
  | p :: rest => if pred p then f p :: rest else p :: modifyFirst pred f rest

/-- The three-field stats assignment of lex.py:176-178 (and 511-513), applied
to the first row with the given `discordId`. -/
def applyStat (st : List Player) (id : Nat) (sk su : Option Rat) (now : Nat) : List Player :=
  modifyFirst (fun p => p.discordId == id)
    (fun p => { p with skill := sk, skillUncertainty := su, lastStatsUpdate := some now }) st

/-- One iteration of the result loop of `refresh_all_player_stats`
(lex.py:172-182), threading `(session rows, updated_count, failed_count)`. -/
def applyOne (now : Nat) (acc : List Player × Nat × Nat) (item : GatherItem) :
    List Player × Nat × Nat :=
  match item with
  | .ok u =>
    -- isinstance(result, dict) and result and result.get("success")
    if u.success then
      if (acc.1.find? (fun p => p.discordId == u.discordId)).isSome then
        (applyStat acc.1 u.discordId (pyToOptRat u.skill) (pyToOptRat u.skillUncertainty) now,
         acc.2.1 + 1, acc.2.2)
      else acc
    else (acc.1, acc.2.1, acc.2.2 + 1)
  | .pyNone => (acc.1, acc.2.1, acc.2.2 + 1)
  | .raised _ => (acc.1, acc.2.1, acc.2.2 + 1)

/-- The full result loop of lex.py:172-182. -/
def applyResults (now : Nat) (acc : List Player × Nat × Nat) :
    List GatherItem → List Player × Nat × Nat
  | [] => acc
  | item :: rest => applyResults now (applyOne now acc item) rest

/-- The awaited `asyncio.gather` result (lex.py:163-165): one item per
player, in player order; `env` gives each username's upstream response. -/
def gather_results (store : List Player) (env : String → HttpResp) : List GatherItem :=
  store.map fun p =>
    toItem (update_single_player_stats
      { discordId := p.discordId, barUsername := p.barUsername } (env p.barUsername))

/-- The summary dict returned by `refresh_all_player_stats`; `error` is the
extra key added by the `except` branch (lex.py:190). -/
structure RefreshSummary where
  total : Nat
  updated : Nat
  failed : Nat
  error : Option String
deriving DecidableEq

/-- `refresh_all_player_stats` (lex.py:139-192).  `commitError` models the
single `db.commit()` at lex.py:184: `Option.none` means the commit succeeds
and installs the mutated rows; `some e` means it raises, the transaction is
discarded (the session is closed uncommitted), and the `except` branch
returns `{"total": 0, "updated": 0, "failed": 0, "error": str(e)}`. -/
def refresh_all_player_stats (store : List Player) (env : String → HttpResp)
    (now : Nat) (commitError : Option String) : List Player × RefreshSummary :=
  let total := store.length
  if total = 0 then (store, ⟨0, 0, 0, Option.none⟩)
  else
    let results := gather_results store env
    let out := applyResults now (store, 0, 0) results
    match commitError with
    | Option.none => (out.1, ⟨total, out.2.1, out.2.2, Option.none⟩)
    | some e => (store, ⟨0, 0, 0, some e⟩)

/-- `save_or_update_player` (lex.py:67-99), acting on the session rows. -/
def save_or_update_player (store : List Player) (discord_id : Nat)
    (discord_username bar_username : String) (registered_by : Option Nat)
    (skill skill_uncertainty : Option Rat) (now : Nat) : List Player :=
  if (store.find? (fun p => p.discordId == discord_id)).isSome then
    modifyFirst (fun p => p.discordId == discord_id)
      (fun p =>
        let p1 := { p with discordUsername := discord_username,
                           barUsername := bar_username, registeredAt := now }
        let p2 := if registered_by.isSome then { p1 with registeredBy := registered_by } else p1
        if skill.isSome then
          { p2 with skill := skill, skillUncertainty := skill_uncertainty,
                    lastStatsUpdate := some now }
        else p2) store
  else
    store ++ [{ discordId := discord_id, discordUsername := discord_username,
                barUsername := bar_username, registeredAt := now,
                registeredBy := registered_by, skill := skill,
                skillUncertainty := skill_uncertainty,
                lastStatsUpdate := if skill.isSome then some now else Option.none }]

/-- Single-character SQL LIKE: try `m` on every suffix of the string
(implements the `%` wildcard). -/
def anySuffix (m : List Char → Bool) : List Char → Bool
  | [] => m []
  | c :: s => m (c :: s) || anySuffix m s

/-- SQL LIKE pattern matching over characters: `%` matches any sequence,
`_` any single character, backslash escapes the next pattern character
(PostgreSQL's default escape; a pattern ending in a lone escape, an error in
PostgreSQL, is modelled as a non-match). -/
def likeMatch : List Char → List Char → Bool
  | [], s => s.isEmpty
  | p :: ps, s =>
    if p = '%' then anySuffix (likeMatch ps) s
    else if p = '\\' then
      match ps, s with
      | q :: ps', c :: s' => q == c && likeMatch ps' s'
      | _, _ => false
    else
      match s with
      | c :: s' => (p == '_' || p == c) && likeMatch ps s'
      | [] => false

/-- `str.lower()`, at the character level. -/
def lowered (s : String) : List Char :=
  s.toList.map Char.toLower

/-- `column.ilike(pattern)`: case-insensitive LIKE (both sides lowered). -/
def ilike (value pattern : String) : Bool :=
  likeMatch (lowered pattern) (lowered value)

/-- The player lookup of `updateuser` (lex.py:498):
`db.query(Player).filter(Player.barUsername.ilike(username)).first()`. -/
def updateuser_lookup (store : List Player) (username : String) : Option Player :=
  store.find? fun p => ilike p.barUsername username

/-- The store effect of `updateuser` (lex.py:490-547): look the player up by
`ilike`, fetch, and on a success result carrying a player commit the
three-field assignment to that row; on any other outcome (no registered
player, fetch failure, not-found, or a raised exception caught by the
surrounding `except`) nothing is committed. -/
def updateuser_apply (store : List Player) (username : String) (resp : HttpResp)
    (now : Nat) : List Player :=
  match updateuser_lookup store username with
  | Option.none => store
  | some player =>
    match updBody { discordId := player.discordId, barUsername := player.barUsername } resp with
    | .error _ => store
    | .ok Option.none => store
    | .ok (some u) =>
      modifyFirst (fun p => ilike p.barUsername username)
        (fun p => { p with skill := pyToOptRat u.skill,
                           skillUncertainty := pyToOptRat u.skillUncertainty,
                           lastStatsUpdate := some now }) store

/-- The per-player dict built by `get_all_players` (lex.py:54-63). -/
structure PlayerInfo where
  discordId : Nat
  discordUsername : String
  barUsername : String
  registeredAt : Option Nat
  registeredBy : Option Nat
  skill : Option Rat
  skillUncertainty : Option Rat
  lastStatsUpdate : Option Nat
deriving DecidableEq

/-- The dict entry for one row (lex.py:54-63); `datetime` objects are always
truthy, so `registeredAt` is always carried over. -/
def playerInfo (p : Player) : PlayerInfo :=
  { discordId := p.discordId, discordUsername := p.discordUsername,
    barUsername := p.barUsername, registeredAt := some p.registeredAt,
    registeredBy := p.registeredBy, skill := p.skill,
    skillUncertainty := p.skillUncertainty, lastStatsUpdate := p.lastStatsUpdate }

/-- Insertion into a Python dict: an existing key is overwritten in place
(keeping its position), a new key is appended. -/
def dictInsert (k : String) (v : PlayerInfo) :
    List (String × PlayerInfo) → List (String × PlayerInfo)
  | [] => [(k, v)]
  | (k', v') :: rest => if k' = k then (k, v) :: rest else (k', v') :: dictInsert k v rest

/-- `get_all_players` (lex.py:49-64): the dict keyed by `str(discordId)`, in
insertion order. -/
def get_all_players (store : List Player) : List (String × PlayerInfo) :=
  store.foldl (fun acc p => dictInsert (toString p.discordId) (playerInfo p) acc) []

/-- One leaderboard row (lex.py:263-268). -/
structure LBEntry where
  discordUsername : String
  barUsername : String
  skill : Rat
  skillUncertainty : Option Rat
deriving DecidableEq

/-- lex.py:263-268: absent skill becomes `0`. -/
def toEntry (info : PlayerInfo) : LBEntry :=
  { discordUsername := info.discordUsername, barUsername := info.barUsername,
    skill := info.skill.getD 0, skillUncertainty := info.skillUncertainty }

/-- Stable insertion for a descending sort: `x` goes in front of the first
element whose key is not larger, hence after every strictly larger key and
before every equal key that was inserted from further right. -/
def insertDesc (x : LBEntry) : List LBEntry → List LBEntry
  | [] => [x]
  | y :: ys => if y.skill ≤ x.skill then x :: y :: ys else y :: insertDesc x ys

/-- Stable descending sort by the `skill` key, modelling Python's
`list.sort(key=lambda x: x["skill"], reverse=True)` (lex.py:270); CPython's
sort is stable and `reverse=True` keeps equal keys in original order. -/
def sortDesc : List LBEntry → List LBEntry
  | [] => []
  | x :: xs => insertDesc x (sortDesc xs)

/-- `get_leaderboard_data` (lex.py:257-271). -/
def get_leaderboard_data (store : List Player) : List LBEntry :=
  sortDesc ((get_all_players store).map fun kv => toEntry kv.2)

/-- What the embed renders in the skill column. -/
inductive SkillText where
  | ranked (q : Rat)
  | unranked
deriving DecidableEq

/-- lex.py:302: `f"..." if p["skill"] > 0 else "Unranked"` (the numeric
formatting itself is presentation and is abstracted to the value). -/
def skill_text (skill : Rat) : SkillText :=
  if skill > 0 then .ranked skill else .unranked

/-- The (username, skill text) content of the embed lines built by
`create_leaderboard_embed` (lex.py:294-311); medals, chunking and
highlighting are presentation only. -/
def create_leaderboard_lines (lb : List LBEntry) : List (String × SkillText) :=
  lb.map fun p => (p.barUsername, skill_text p.skill)

/-- The store operations a run of the bot performs (registration upsert,
batch refresh, single-player update). -/
inductive StoreOp where
  | register (id : Nat) (du bu : String) (rb : Option Nat) (sk su : Option Rat) (now : Nat)
  | refreshAll (env : String → HttpResp) (now : Nat) (commitError : Option String)
  | updateOne (username : String) (resp : HttpResp) (now : Nat)

/-- Apply one store operation. -/
def applyOp (store : List Player) : StoreOp → List Player
  | .register id du bu rb sk su now => save_or_update_player store id du bu rb sk su now
  | .refreshAll env now ce => (refresh_all_player_stats store env now ce).1
  | .updateOne u resp now => updateuser_apply store u resp now

/-- Statement helper: the fetch outcome is an upstream failure
(`success=False`, i.e. an exception inside the HTTP `try`). -/
def fetch_failed (resp : HttpResp) : Bool :=
  match fetch_player_stats resp with
  | .error _ => false
  | .ok r =>
    match r with
    | .dict kvs => !((lookupKV kvs "success").getD .none).truthy
    | _ => false

/-- Statement helper: the fetch produced a success result carrying a player
(the condition at lex.py:240 / 508). -/
def fetchFoundPlayer (resp : HttpResp) : Bool :=
  match fetch_player_stats resp with
  | .error _ => false
  | .ok r =>
    match r.get1 "success", r.get1 "player" with
    | .ok s, .ok pl => s.truthy && pl.truthy
    | _, _ => false

/-- Statement helper: gather items counted by `updated_count` (a result dict
whose `success` entry is truthy). -/
def isOkSucc : GatherItem → Bool
  | .ok u => u.success
  | _ => false

/-- Statement helper: gather items counted by `failed_count` (everything that
is not a truthy-success dict: `None` results, captured exceptions, dicts
without success). -/
def isFailItem : GatherItem → Bool
  | .ok u => !u.success
  | .pyNone => true
  | .raised _ => true

/-- Statement helper: the half of the spec's rating-triple invariant that the
code maintains — a row with a rating always carries a stats timestamp. -/
def ratingTimestamped (p : Player) : Prop :=
  p.skill.isSome = true → p.lastStatsUpdate.isSome = true

/-- Statement helper: the map forgetting everything the leaderboard pipeline
does not consume (it keeps each dict entry's key and its leaderboard row). -/
def relMap (d : List (String × PlayerInfo)) : List (String × LBEntry) :=
  d.map fun kv => (kv.1, toEntry kv.2)

/-! ## Helper lemmas about the session-row primitives -/

theorem modifyFirst_map_discordId (pred : Player → Bool) (f : Player → Player)
    (hf : ∀ p, (f p).discordId = p.discordId) :
    ∀ st : List Player, (modifyFirst pred f st).map Player.discordId = st.map Player.discordId := by
  intro st
  induction st with
  | nil => rfl
  | cons p rest ih =>
    by_cases h : pred p = true
    · simp [modifyFirst, h, hf p]
    · simp [modifyFirst, h, ih]

theorem applyStat_map_discordId (st : List Player) (id : Nat) (sk su : Option Rat) (now : Nat) :
    (applyStat st id sk su now).map Player.discordId = st.map Player.discordId := by
  unfold applyStat
  apply modifyFirst_map_discordId
  intro p
  rfl

theorem modifyFirst_find?_frame (pred pred' : Player → Bool) (f : Player → Player)
    (h : ∀ p, pred p = true → pred' p = false ∧ pred' (f p) = false) :
    ∀ st : List Player, (modifyFirst pred f st).find? pred' = st.find? pred' := by
  intro st
  induction st with
  | nil => rfl
  | cons p rest ih =>
    by_cases hp : pred p
    · obtain ⟨h1, h2⟩ := h p hp
      simp [modifyFirst, hp, List.find?, h1, h2]
    · simp [modifyFirst, hp, List.find?]
      by_cases hp' : pred' p
      · simp [hp']
      · simp [hp', ih]

theorem applyStat_find?_ne (st : List Player) (id x : Nat) (sk su : Option Rat) (now : Nat)
    (hne : id ≠ x) :
    (applyStat st id sk su now).find? (fun p => p.discordId == x)
      = st.find? (fun p => p.discordId == x) := by
  unfold applyStat
  apply modifyFirst_find?_frame
  intro p hp
  have hid : p.discordId = id := by simpa using hp
  constructor <;> simp [hid, hne]

theorem modifyFirst_find? (pred : Player → Bool) (f : Player → Player)
    (hf : ∀ p, pred (f p) = pred p) :
    ∀ st : List Player, (modifyFirst pred f st).find? pred = (st.find? pred).map f := by
  intro st
  induction st with
  | nil => rfl
  | cons p rest ih =>
    by_cases h : pred p
    · simp [modifyFirst, h, List.find?, hf p]
    · simp [modifyFirst, h, List.find?, ih]

theorem forall_mem_modifyFirst (pred : Player → Bool) (f : Player → Player)
    (Q : Player → Prop) (st : List Player)
    (hst : ∀ p ∈ st, Q p) (hf : ∀ p, Q p → Q (f p)) :
    ∀ q ∈ modifyFirst pred f st, Q q := by
  induction st with
  | nil => intro q hq; simp [modifyFirst] at hq
  | cons p rest ih =>
    intro q hq
    by_cases h : pred p = true
    · simp [modifyFirst, h] at hq
      rcases hq with hq | hq
      · exact hq ▸ hf p (hst p (List.mem_cons_self _ _))
      · exact hst q (List.mem_cons_of_mem _ hq)
    · simp [modifyFirst, h] at hq
      rcases hq with hq | hq
      · exact hq ▸ hst p (List.mem_cons_self _ _)
      · exact ih (fun r hr => hst r (List.mem_cons_of_mem _ hr)) q hq

theorem find?_discordId_isSome (st : List Player) (x : Nat) :
    (st.find? (fun p => p.discordId == x)).isSome = true ↔ x ∈ st.map Player.discordId := by
  induction st with
  | nil => simp [List.find?]
  | cons p rest ih =>
    by_cases h : p.discordId = x
    · simp [List.find?, h]
    · have h' : (p.discordId == x) = false := by simp [h]
      simp [List.find?, h', ih, h]
      intro hx
      exact absurd hx.symm h

theorem find?_self_of_nodup (st : List Player) (p : Player)
    (hnd : (st.map Player.discordId).Nodup) (hp : p ∈ st) :
    st.find? (fun q => q.discordId == p.discordId) = some p := by
  induction st with
  | nil => simp at hp
  | cons q rest ih =>
    rcases List.mem_cons.mp hp with rfl | hp'
    · simp [List.find?]
    · by_cases h : q.discordId = p.discordId
      · exfalso
        simp [List.nodup_cons] at hnd
        exact hnd.1 p hp' h.symm
      · have h' : (q.discordId == p.discordId) = false := by simp [h]
        simp [List.find?, h']
        exact ih (by simp [List.nodup_cons] at hnd; exact hnd.2) hp'

/-! ## Helper lemmas about the refresh result loop -/

theorem applyOne_shift (now : Nat) (st : List Player) (u f a b : Nat) (item : GatherItem) :
    applyOne now (st, u + a, f + b) item
      = ((applyOne now (st, u, f) item).1,
         (applyOne now (st, u, f) item).2.1 + a,
         (applyOne now (st, u, f) item).2.2 + b) := by
  cases item with
  | ok x =>
    by_cases hs : x.success
    · by_cases hf : (st.find? (fun p => p.discordId == x.discordId)).isSome
      · simp [applyOne, hs, hf]
        omega
      · simp [applyOne, hs, hf]
    · simp [applyOne, hs]
      omega
  | pyNone => simp [applyOne]; omega
  | raised msg => simp [applyOne]; omega

theorem applyResults_shift (now : Nat) (rs : List GatherItem) :
    ∀ (st : List Player) (u f a b : Nat),
    applyResults now (st, u + a, f + b) rs
      = ((applyResults now (st, u, f) rs).1,
         (applyResults now (st, u, f) rs).2.1 + a,
         (applyResults now (st, u, f) rs).2.2 + b) := by
  induction rs with
  | nil => intro st u f a b; rfl
  | cons item rest ih =>
    intro st u f a b
    simp only [applyResults, applyOne_shift]
    have h1 := ih (applyOne now (st, u, f) item).1
      (applyOne now (st, u, f) item).2.1 (applyOne now (st, u, f) item).2.2 a b
    simpa using h1

theorem applyResults_insert_fail (now : Nat) (item : GatherItem)
    (hitem : ∀ acc : List Player × Nat × Nat,
      applyOne now acc item = (acc.1, acc.2.1, acc.2.2 + 1)) :
    ∀ (rs1 rs2 : List GatherItem) (st : List Player) (u f : Nat),
    applyResults now (st, u, f) (rs1 ++ item :: rs2)
      = ((applyResults now (st, u, f) (rs1 ++ rs2)).1,
         (applyResults now (st, u, f) (rs1 ++ rs2)).2.1,
         (applyResults now (st, u, f) (rs1 ++ rs2)).2.2 + 1) := by
  intro rs1
  induction rs1 with
  | nil =>
    intro rs2 st u f
    simp only [List.nil_append, applyResults, hitem (st, u, f)]
    have := applyResults_shift now rs2 st u f 0 1
    simpa using this
  | cons r rest ih =>
    intro rs2 st u f
    simp only [List.cons_append, applyResults]
    exact ih rs2 (applyOne now (st, u, f) r).1
      (applyOne now (st, u, f) r).2.1 (applyOne now (st, u, f) r).2.2

theorem applyResults_counts (now : Nat) (rs : List GatherItem) :
    ∀ (st : List Player) (u f : Nat),
    (∀ x, GatherItem.ok x ∈ rs → x.success = true → x.discordId ∈ st.map Player.discordId) →
    (applyResults now (st, u, f) rs).2.1 = u + rs.countP isOkSucc
      ∧ (applyResults now (st, u, f) rs).2.2 = f + rs.countP isFailItem
      ∧ (applyResults now (st, u, f) rs).1.map Player.discordId = st.map Player.discordId := by
  induction rs with
  | nil => intro st u f _; simp [applyResults]
  | cons item rest ih =>
    intro st u f hmem
    cases item with
    | ok x =>
      by_cases hs : x.success
      · have hid : x.discordId ∈ st.map Player.discordId :=
          hmem x (List.mem_cons_self _ _) hs
        have hfind : (st.find? (fun p => p.discordId == x.discordId)).isSome = true :=
          (find?_discordId_isSome st x.discordId).mpr hid
        have hmem' : ∀ y, GatherItem.ok y ∈ rest → y.success = true →
            y.discordId ∈ (applyStat st x.discordId (pyToOptRat x.skill)
              (pyToOptRat x.skillUncertainty) now).map Player.discordId := by
          intro y hy hys
          rw [applyStat_map_discordId]
          exact hmem y (List.mem_cons_of_mem _ hy) hys
        obtain ⟨h1, h2, h3⟩ := ih _ (u + 1) f hmem'
        refine ⟨?_, ?_, ?_⟩
        · simp [applyResults, applyOne, hs, hfind, h1, List.countP_cons, isOkSucc, hs]
          omega
        · simp [applyResults, applyOne, hs, hfind, h2, List.countP_cons, isFailItem, hs]
        · simp [applyResults, applyOne, hs, hfind, h3, applyStat_map_discordId]
      · have hmem' : ∀ y, GatherItem.ok y ∈ rest → y.success = true →
            y.discordId ∈ st.map Player.discordId := by
          intro y hy hys; exact hmem y (List.mem_cons_of_mem _ hy) hys
        obtain ⟨h1, h2, h3⟩ := ih st u (f + 1) hmem'
        refine ⟨?_, ?_, ?_⟩
        · simp [applyResults, applyOne, hs, h1, List.countP_cons, isOkSucc]
        · simp [applyResults, applyOne, hs, h2, List.countP_cons, isFailItem]
          omega
        · simp [applyResults, applyOne, hs, h3]
    | pyNone =>
      have hmem' : ∀ y, GatherItem.ok y ∈ rest → y.success = true →
          y.discordId ∈ st.map Player.discordId := by
        intro y hy hys; exact hmem y (List.mem_cons_of_mem _ hy) hys
      obtain ⟨h1, h2, h3⟩ := ih st u (f + 1) hmem'
      refine ⟨?_, ?_, ?_⟩
      · simp [applyResults, applyOne, h1, List.countP_cons, isOkSucc]
      · simp [applyResults, applyOne, h2, List.countP_cons, isFailItem]
        omega
      · simp [applyResults, applyOne, h3]
    | raised msg =>
      have hmem' : ∀ y, GatherItem.ok y ∈ rest → y.success = true →
          y.discordId ∈ st.map Player.discordId := by
        intro y hy hys; exact hmem y (List.mem_cons_of_mem _ hy) hys
      obtain ⟨h1, h2, h3⟩ := ih st u (f + 1) hmem'
      refine ⟨?_, ?_, ?_⟩
      · simp [applyResults, applyOne, h1, List.countP_cons, isOkSucc]
      · simp [applyResults, applyOne, h2, List.countP_cons, isFailItem]
        omega
      · simp [applyResults, applyOne, h3]

theorem applyResults_find?_frame (now : Nat) (rs : List GatherItem) :
    ∀ (st : List Player) (u f : Nat) (x : Nat),
    (∀ y, GatherItem.ok y ∈ rs → y.discordId ≠ x) →
    (applyResults now (st, u, f) rs).1.find? (fun p => p.discordId == x)
      = st.find? (fun p => p.discordId == x) := by
  induction rs with
  | nil => intro st u f x _; rfl
  | cons item rest ih =>
    intro st u f x hne
    have hne' : ∀ y, GatherItem.ok y ∈ rest → y.discordId ≠ x := by
      intro y hy; exact hne y (List.mem_cons_of_mem _ hy)
    cases item with
    | ok y =>
      have hyx : y.discordId ≠ x := hne y (List.mem_cons_self _ _)
      by_cases hs : y.success
      · by_cases hf : (st.find? (fun p => p.discordId == y.discordId)).isSome
        · simp only [applyResults, applyOne, hs, hf, if_true]
          rw [ih _ _ _ x hne']
          exact applyStat_find?_ne st y.discordId x _ _ now hyx
        · simp only [applyResults, applyOne, hs, hf, if_true, if_false]
          exact ih _ _ _ x hne'
      · simp only [applyResults, applyOne, hs, if_false]
        exact ih _ _ _ x hne'
    | pyNone =>
      simp only [applyResults, applyOne]
      exact ih _ _ _ x hne'
    | raised msg =>
      simp only [applyResults, applyOne]
      exact ih _ _ _ x hne'

/-! ## Facts about the per-task result -/

theorem updBody_some (pd : PlayerData) (resp : HttpResp) (u : UpdateResult)
    (h : updBody pd resp = .ok (some u)) :
    u.discordId = pd.discordId ∧ u.success = true := by
  unfold updBody at h
  repeat' split at h
  all_goals try exact Except.noConfusion h
  all_goals injection h with h
  all_goals try exact Option.noConfusion h
  all_goals injection h with h
  all_goals subst h
  all_goals exact ⟨rfl, rfl⟩

theorem update_single_some (pd : PlayerData) (resp : HttpResp) (u : UpdateResult)
    (h : update_single_player_stats pd resp = some u) :
    u.discordId = pd.discordId ∧ u.success = true := by
  unfold update_single_player_stats at h
  split at h
  · exact absurd h (by simp)
  · next r heq =>
    exact updBody_some pd resp u (h ▸ heq)

/-! ## Helper lemmas about the stable descending sort -/

theorem mem_insertDesc (x z : LBEntry) :
    ∀ l : List LBEntry, z ∈ insertDesc x l ↔ z = x ∨ z ∈ l := by
  intro l
  induction l with
  | nil => simp [insertDesc]
  | cons y ys ih =>
    by_cases h : y.skill ≤ x.skill
    · simp [insertDesc, h]
    · simp [insertDesc, h, ih]
      tauto

theorem pairwise_insertDesc (x : LBEntry) :
    ∀ l : List LBEntry, l.Pairwise (fun a b => b.skill ≤ a.skill) →
    (insertDesc x l).Pairwise (fun a b => b.skill ≤ a.skill) := by
  intro l
  induction l with
  | nil => intro _; simp [insertDesc]
  | cons y ys ih =>
    intro h
    rw [List.pairwise_cons] at h
    obtain ⟨h1, h2⟩ := h
    by_cases hle : y.skill ≤ x.skill
    · simp only [insertDesc, hle, if_true]
      rw [List.pairwise_cons]
      constructor
      · intro z hz
        rcases List.mem_cons.mp hz with rfl | hz'
        · exact hle
        · exact le_trans (h1 z hz') hle
      · rw [List.pairwise_cons]
        exact ⟨h1, h2⟩
    · simp only [insertDesc, hle, if_false]
      rw [List.pairwise_cons]
      constructor
      · intro z hz
        rcases (mem_insertDesc x z ys).mp hz with rfl | hz'
        · exact le_of_lt (lt_of_not_le hle)
        · exact h1 z hz'
      · exact ih h2

theorem sortDesc_pairwise :
    ∀ l : List LBEntry, (sortDesc l).Pairwise (fun a b => b.skill ≤ a.skill) := by
  intro l
  induction l with
  | nil => simp [sortDesc]
  | cons x xs ih => exact pairwise_insertDesc x (sortDesc xs) ih

theorem filter_insertDesc (x : LBEntry) (k : Rat) :
    ∀ l : List LBEntry,
    (insertDesc x l).filter (fun e => e.skill == k)
      = if x.skill == k then x :: l.filter (fun e => e.skill == k)
        else l.filter (fun e => e.skill == k) := by
  intro l
  induction l with
  | nil =>
    by_cases hx : x.skill == k
    · simp [insertDesc, List.filter, hx]
    · simp [insertDesc, List.filter, hx]
  | cons y ys ih =>
    by_cases hle : y.skill ≤ x.skill
    · by_cases hx : x.skill == k
      · simp [insertDesc, hle, List.filter, hx]
      · simp [insertDesc, hle, List.filter, hx]
    · by_cases hx : x.skill == k
      · by_cases hy : y.skill == k
        · exfalso
          have hx' : x.skill = k := by simpa using hx
          have hy' : y.skill = k := by simpa using hy
          exact hle (le_of_eq (hy'.trans hx'.symm))
        · simp [insertDesc, hle, List.filter, hx, hy, ih]
      · by_cases hy : y.skill == k
        · simp [insertDesc, hle, List.filter, hx, hy, ih]
        · simp [insertDesc, hle, List.filter, hx, hy, ih]

theorem filter_sortDesc (k : Rat) :
    ∀ l : List LBEntry,
    (sortDesc l).filter (fun e => e.skill == k) = l.filter (fun e => e.skill == k) := by
  intro l
  induction l with
  | nil => rfl
  | cons x xs ih =>
    by_cases hx : x.skill == k
    · simp [sortDesc, filter_insertDesc, hx, List.filter, ih]
    · simp [sortDesc, filter_insertDesc, hx, List.filter, ih]

/-! ## Helper lemmas about LIKE matching -/

theorem likeMatch_exact :
    ∀ p s : List Char, (∀ c ∈ p, c ≠ '%' ∧ c ≠ '_' ∧ c ≠ '\\') →
    (likeMatch p s = true ↔ p = s) := by
  intro p
  induction p with
  | nil =>
    intro s _
    cases s with
    | nil => simp [likeMatch]
    | cons c s' => simp [likeMatch]
  | cons c p' ih =>
    intro s hp
    obtain ⟨hpc, hund, hesc⟩ := hp c (List.mem_cons_self _ _)
    have hp' : ∀ d ∈ p', d ≠ '%' ∧ d ≠ '_' ∧ d ≠ '\\' := by
      intro d hd; exact hp d (List.mem_cons_of_mem _ hd)
    cases s with
    | nil =>
      have hstep : likeMatch (c :: p') [] = false := by
        rw [likeMatch.eq_def]
        simp [hpc, hesc]
      simp [hstep]
    | cons d s' =>
      have hcu : (c == '_') = false := by simpa using hund
      have hstep : likeMatch (c :: p') (d :: s') = ((c == '_' || c == d) && likeMatch p' s') := by
        rw [likeMatch.eq_def]
        simp [hpc, hesc]
      rw [hstep, hcu]
      simp only [Bool.false_or, Bool.and_eq_true, beq_iff_eq, List.cons.injEq]
      rw [ih s' hp']

theorem ilike_noWild (v pat : String)
    (h : ∀ c ∈ lowered pat, c ≠ '%' ∧ c ≠ '_' ∧ c ≠ '\\') :
    ilike v pat = (lowered v == lowered pat) := by
  unfold ilike
  by_cases hb : likeMatch (lowered pat) (lowered v) = true
  · have heq : lowered pat = lowered v := (likeMatch_exact _ _ h).mp hb
    rw [hb]
    symm
    rw [beq_iff_eq]
    exact heq.symm
  · have hne : lowered pat ≠ lowered v := by
      intro heq
      exact hb ((likeMatch_exact _ _ h).mpr heq)
    simp only [Bool.not_eq_true] at hb
    rw [hb]
    symm
    simp
    intro heq
    exact hne (heq.symm)

/-! ## Helper lemmas for the leaderboard pipeline congruence -/

theorem relMap_dictInsert (k : String) (v1 v2 : PlayerInfo) (hv : toEntry v1 = toEntry v2) :
    ∀ d1 d2 : List (String × PlayerInfo), relMap d1 = relMap d2 →
    relMap (dictInsert k v1 d1) = relMap (dictInsert k v2 d2) := by
  intro d1
  induction d1 with
  | nil =>
    intro d2 hd
    have hnil : d2 = [] := by
      cases d2 with
      | nil => rfl
      | cons b t => simp [relMap] at hd
    subst hnil
    simp [relMap, dictInsert, hv]
  | cons a t1 ih =>
    intro d2 hd
    cases d2 with
    | nil => simp [relMap] at hd
    | cons b t2 =>
      simp only [relMap, List.map_cons, List.cons.injEq, Prod.mk.injEq] at hd
      obtain ⟨⟨hk, he⟩, ht⟩ := hd
      by_cases hka : a.1 = k
      · have hkb : b.1 = k := hk ▸ hka
        simp [dictInsert, hka, hkb, relMap, hv, ht]
      · have hkb : ¬b.1 = k := hk ▸ hka
        simp only [dictInsert, hka, hkb, if_false, relMap, List.map_cons]
        rw [hk, he]
        have := ih t2 (by simpa [relMap] using ht)
        simpa [relMap] using this

theorem relMap_foldl (rest : List Player) :
    ∀ d1 d2 : List (String × PlayerInfo), relMap d1 = relMap d2 →
    relMap (rest.foldl (fun acc p => dictInsert (toString p.discordId) (playerInfo p) acc) d1)
      = relMap (rest.foldl (fun acc p => dictInsert (toString p.discordId) (playerInfo p) acc) d2) := by
  induction rest with
  | nil => intro d1 d2 hd; simpa using hd
  | cons p t ih =>
    intro d1 d2 hd
    simp only [List.foldl_cons]
    exact ih _ _ (relMap_dictInsert _ _ _ rfl d1 d2 hd)

theorem entries_eq_of_relMap {d1 d2 : List (String × PlayerInfo)} (hd : relMap d1 = relMap d2) :
    d1.map (fun kv => toEntry kv.2) = d2.map (fun kv => toEntry kv.2) := by
  have h1 : d1.map (fun kv => toEntry kv.2) = (relMap d1).map Prod.snd := by
    simp [relMap, List.map_map]
  have h2 : d2.map (fun kv => toEntry kv.2) = (relMap d2).map Prod.snd := by
    simp [relMap, List.map_map]
  rw [h1, h2, hd]

/-! ## Helper lemmas: the rating-timestamp invariant is preserved -/

theorem applyResults_ratingTimestamped (now : Nat) (rs : List GatherItem) :
    ∀ (st : List Player) (u f : Nat), (∀ p ∈ st, ratingTimestamped p) →
    ∀ q ∈ (applyResults now (st, u, f) rs).1, ratingTimestamped q := by
  induction rs with
  | nil => intro st u f hst; exact hst
  | cons item rest ih =>
    intro st u f hst
    cases item with
    | ok x =>
      by_cases hs : x.success
      · by_cases hf : (st.find? (fun p => p.discordId == x.discordId)).isSome
        · simp only [applyResults, applyOne, hs, hf, if_true]
          apply ih
          apply forall_mem_modifyFirst _ _ _ _ hst
          intro p _
          intro _
          rfl
        · simp only [applyResults, applyOne, hs, hf, if_true, if_false]
          exact ih st _ _ hst
      · simp only [applyResults, applyOne, hs, if_false]
        exact ih st _ _ hst
    | pyNone =>
      simp only [applyResults, applyOne]
      exact ih st _ _ hst
    | raised msg =>
      simp only [applyResults, applyOne]
      exact ih st _ _ hst

theorem refresh_ratingTimestamped (store : List Player) (env : String → HttpResp)
    (now : Nat) (ce : Option String) (hst : ∀ p ∈ store, ratingTimestamped p) :
    ∀ q ∈ (refresh_all_player_stats store env now ce).1, ratingTimestamped q := by
  unfold refresh_all_player_stats
  by_cases h0 : store.length = 0
  · simpa [h0] using hst
  · cases ce with
    | none =>
      simp only [h0, if_false]
      exact applyResults_ratingTimestamped now (gather_results store env) store 0 0 hst
    | some e =>
      simpa [h0] using hst

theorem save_ratingTimestamped (store : List Player) (id : Nat) (du bu : String)
    (rb : Option Nat) (sk su : Option Rat) (now : Nat)
    (hst : ∀ p ∈ store, ratingTimestamped p) :
    ∀ q ∈ save_or_update_player store id du bu rb sk su now, ratingTimestamped q := by
  unfold save_or_update_player
  by_cases hfound : (store.find? (fun p => p.discordId == id)).isSome
  · simp only [hfound, if_true]
    apply forall_mem_modifyFirst _ _ _ _ hst
    intro p hp
    by_cases hsk : sk.isSome
    · simp [ratingTimestamped, hsk]
    · simp only [hsk, if_false]
      by_cases hrb : rb.isSome
      · simpa [ratingTimestamped, hrb] using hp
      · simpa [ratingTimestamped, hrb] using hp
  · simp only [hfound, if_false]
    intro q hq
    rcases List.mem_append.mp hq with hq' | hq'
    · exact hst q hq'
    · have : q = ⟨id, du, bu, now, rb, sk, su,
          if sk.isSome then some now else Option.none⟩ := by
        simpa using hq'
      subst this
      by_cases hsk : sk.isSome
      · simp [ratingTimestamped, hsk]
      · simp [ratingTimestamped, hsk]

theorem updateuser_ratingTimestamped (store : List Player) (username : String)
    (resp : HttpResp) (now : Nat) (hst : ∀ p ∈ store, ratingTimestamped p) :
    ∀ q ∈ updateuser_apply store username resp now, ratingTimestamped q := by
  unfold updateuser_apply
  cases updateuser_lookup store username with
  | none => exact hst
  | some player =>
    simp only []
    cases updBody { discordId := player.discordId, barUsername := player.barUsername } resp with
    | error e => exact hst
    | ok r =>
      cases r with
      | none => exact hst
      | some u =>
        apply forall_mem_modifyFirst _ _ _ _ hst
        intro p _
        intro _
        rfl

/-! ## Helper lemmas about the gather result list -/

theorem gather_ok_mem (store : List Player) (env : String → HttpResp) (y : UpdateResult)
    (h : GatherItem.ok y ∈ gather_results store env) :
    ∃ q ∈ store,
      update_single_player_stats { discordId := q.discordId, barUsername := q.barUsername }
        (env q.barUsername) = some y := by
  unfold gather_results at h
  rcases List.mem_map.mp h with ⟨q, hq, heq⟩
  refine ⟨q, hq, ?_⟩
  cases hupd : update_single_player_stats
      { discordId := q.discordId, barUsername := q.barUsername } (env q.barUsername) with
  | none =>
    rw [hupd] at heq
    exact GatherItem.noConfusion heq
  | some u =>
    rw [hupd] at heq
    have : u = y := by simpa [toItem] using heq
    rw [this]

theorem countP_ok_fail (rs : List GatherItem) :
    rs.countP isOkSucc + rs.countP isFailItem = rs.length := by
  induction rs with
  | nil => rfl
  | cons i t ih =>
    cases i with
    | ok u =>
      cases hu : u.success <;>
        simp [List.countP_cons, isOkSucc, isFailItem, hu] <;> omega
    | pyNone => simp [List.countP_cons, isOkSucc, isFailItem]; omega
    | raised m => simp [List.countP_cons, isOkSucc, isFailItem]; omega

theorem updBody_not_some (pd : PlayerData) (resp : HttpResp)
    (h : fetchFoundPlayer resp = false) (u : UpdateResult) :
    ¬ updBody pd resp = .ok (some u) := by
  intro hc
  rcases hfe : fetch_player_stats resp with e | r
  · simp only [updBody, hfe] at hc
    exact Except.noConfusion hc
  · simp only [updBody, fetchFoundPlayer, hfe] at hc h
    rcases hs : r.get1 "success" with e1 | s
    · simp only [hs] at hc
      exact Except.noConfusion hc
    · rcases hp : r.get1 "player" with e2 | pl
      · simp only [hs, hp] at hc
        exact Except.noConfusion hc
      · simp only [hs, hp] at hc h
        rw [if_neg (by simp [h])] at hc
        exact Option.noConfusion (Except.ok.inj hc)

/-! ## Claim theorems -/

/-- C4 counterexample: a player registered at time 5 is re-registered with
identical data at time 9, and the stored `registeredAt` changes from 5 to 9
(lex.py:77 overwrites it on the update path), contradicting the claim that
`registeredAt` is set exactly once at first creation. -/
theorem c4_counterexample :
    save_or_update_player
        [⟨1, "u", "alice", 5, Option.none, Option.none, Option.none, Option.none⟩]
        1 "u" "alice" Option.none Option.none Option.none 9
      = [⟨1, "u", "alice", 9, Option.none, Option.none, Option.none, Option.none⟩]
    ∧ (9 : Nat) ≠ 5 := by
  decide

/-- C4 (amended): on re-registration the upsert overwrites `registeredAt`
with the re-registration time (and always overwrites `discordUsername` and
`barUsername`); `registeredBy` and the rating triple are merged only when
supplied; when the `discordId` is absent a fresh row is appended whose
`registeredAt` is the creation time. -/
theorem c4_amended :
    (∀ (store : List Player) (id : Nat) (du bu : String) (rb : Option Nat)
        (sk su : Option Rat) (now : Nat) (p : Player),
      store.find? (fun q => q.discordId == id) = some p →
      (save_or_update_player store id du bu rb sk su now).find? (fun q => q.discordId == id)
        = some ⟨p.discordId, du, bu, now,
            if rb.isSome then rb else p.registeredBy,
            if sk.isSome then sk else p.skill,
            if sk.isSome then su else p.skillUncertainty,
            if sk.isSome then some now else p.lastStatsUpdate⟩)
    ∧ (∀ (store : List Player) (id : Nat) (du bu : String) (rb : Option Nat)
        (sk su : Option Rat) (now : Nat),
      store.find? (fun q => q.discordId == id) = Option.none →
      save_or_update_player store id du bu rb sk su now
        = store ++ [⟨id, du, bu, now, rb, sk, su,
            if sk.isSome then some now else Option.none⟩]) := by
  constructor
  · intro store id du bu rb sk su now p hfind
    unfold save_or_update_player
    rw [if_pos (by simp [hfind])]
    rw [modifyFirst_find? _ _ (fun q => by cases hrb : rb.isSome <;> cases hsk : sk.isSome <;>
      simp [hrb, hsk]) store]
    rw [hfind]
    cases hrb : rb.isSome <;> cases hsk : sk.isSome <;> simp [hrb, hsk]
  · intro store id du bu rb sk su now hfind
    unfold save_or_update_player
    rw [if_neg (by simp [hfind])]

/-- C4 witness: re-registering the stored player 1 with no optional fields
at time 9 yields the merged record predicted by the amended claim. -/
theorem c4_witness :
    (save_or_update_player
        [⟨1, "u", "alice", 5, Option.none, some 10, some 2, some 4⟩]
        1 "u2" "alice2" Option.none Option.none Option.none 9).find?
        (fun q => q.discordId == 1)
      = some ⟨1, "u2", "alice2", 9, Option.none, some 10, some 2, some 4⟩ := by
  have h := c4_amended.1
    [⟨1, "u", "alice", 5, Option.none, some 10, some 2, some 4⟩]
    1 "u2" "alice2" Option.none Option.none Option.none 9
    ⟨1, "u", "alice", 5, Option.none, some 10, some 2, some 4⟩ (by decide)
  simpa using h

/-- C5 counterexample: a malformed payload — a non-empty JSON list whose
first element is not an object — makes `fetch_player_stats` raise an
`AttributeError` to its caller (lex.py:211 runs outside the `try`),
contradicting the claim that a malformed payload yields a `FetchError`
result and that the function never raises. -/
theorem c5_counterexample :
    fetch_player_stats (HttpResp.body (.list [.num 5])) = .error .attributeError := by
  rfl

/-- C5 (amended): every exception raised inside the HTTP exchange (transport
failure, non-2xx status, timeout, JSON decode error) yields the soft
`{"success": False, "error": str(e)}` result; an empty candidate list — and
any non-list JSON body — yields `{"success": True, "player": None}`
(NotFound); but the dynamic navigation of a non-empty list is outside any
handler, so a non-object first element raises to the caller. -/
theorem c5_amended :
    (∀ e : String, fetch_player_stats (HttpResp.exn e)
        = .ok (.dict [("success", .bool false), ("error", .str e)]))
    ∧ fetch_player_stats (HttpResp.body (.list [])) = .ok notFoundResult
    ∧ (∀ v : PyVal, (∀ xs, v ≠ .list xs) →
        fetch_player_stats (HttpResp.body v) = .ok notFoundResult) := by
  refine ⟨fun e => rfl, rfl, ?_⟩
  intro v hv
  cases v with
  | list xs => exact absurd rfl (hv xs)
  | none => rfl
  | bool b => rfl
  | num q => rfl
  | str s => rfl
  | dict kvs => rfl

/-- C5 witness: a JSON object body (not a list) is classified as NotFound. -/
theorem c5_witness :
    fetch_player_stats (HttpResp.body (.dict [("oops", .num 1)])) = .ok notFoundResult :=
  c5_amended.2.2 (.dict [("oops", .num 1)]) (fun _ h => PyVal.noConfusion h)

/-- C7 counterexample: two players both fetch fresh ratings successfully,
but a store write error at the single `db.commit()` (lex.py:184) discards
the whole batch — neither record is written — and the `except` branch
(lex.py:188-190) reports `{"total": 0, "updated": 0, "failed": 0, "error"}`
instead of a partial-failure summary, contradicting the claim that remaining
writes survive a store write error. -/
theorem c7_counterexample :
    refresh_all_player_stats
        [⟨1, "ua", "alpha", 0, Option.none, Option.none, Option.none, Option.none⟩,
         ⟨2, "ub", "beta", 0, Option.none, Option.none, Option.none, Option.none⟩]
        (fun _ => HttpResp.body (.list [.dict [("username", .str "x"),
          ("skill", .list [.dict [("gamemode", .num 3), ("skill", .num 25),
            ("skillUncertainty", .num 3)]])]]))
        99 (some "disk full")
      = ([⟨1, "ua", "alpha", 0, Option.none, Option.none, Option.none, Option.none⟩,
          ⟨2, "ub", "beta", 0, Option.none, Option.none, Option.none, Option.none⟩],
         ⟨0, 0, 0, some "disk full"⟩) := by
  decide

/-- C7 (amended): a store write error while applying a non-empty batch
aborts the entire batch: no record mutation is committed (the store keeps
its prior rows) and the caller receives the all-zero summary carrying the
error string, not a partial-failure summary. -/
theorem c7_amended (store : List Player) (env : String → HttpResp) (now : Nat)
    (msg : String) (h : store ≠ []) :
    refresh_all_player_stats store env now (some msg)
      = (store, ⟨0, 0, 0, some msg⟩) := by
  have hlen : ¬ store.length = 0 := by
    simpa using fun hl => h (List.length_eq_zero.mp hl)
  simp [refresh_all_player_stats, hlen]

/-- C7 witness: the amended claim at a concrete one-player store. -/
theorem c7_witness :
    refresh_all_player_stats
        [⟨1, "u", "a", 0, Option.none, Option.none, Option.none, Option.none⟩]
        (fun _ => HttpResp.exn "x") 0 (some "disk full")
      = ([⟨1, "u", "a", 0, Option.none, Option.none, Option.none, Option.none⟩],
         ⟨0, 0, 0, some "disk full"⟩) :=
  c7_amended _ _ 0 "disk full" (by decide)

/-- C8 counterexample: the `ilike` lookup treats the query as a LIKE
pattern: querying "ali%" returns the stored player "alice" although the two
strings are not equal ignoring case, contradicting the claim that the
lookup matches exactly the case-insensitively-equal username and nothing
else. -/
theorem c8_counterexample :
    updateuser_lookup
        [⟨1, "u", "alice", 5, Option.none, Option.none, Option.none, Option.none⟩] "ali%"
      = some ⟨1, "u", "alice", 5, Option.none, Option.none, Option.none, Option.none⟩
    ∧ lowered "ali%" ≠ lowered "alice" := by
  decide

/-- C8 (amended): the lookup matches the stored `barUsername` against the
query as a case-insensitive SQL LIKE pattern (`%` any sequence, `_` any
single character, backslash escaping); whenever the query contains none of
those metacharacters this coincides with case-insensitive equality. -/
theorem c8_amended (store : List Player) (username : String)
    (h : ∀ c ∈ lowered username, c ≠ '%' ∧ c ≠ '_' ∧ c ≠ '\\') :
    updateuser_lookup store username
      = store.find? (fun p => lowered p.barUsername == lowered username) := by
  unfold updateuser_lookup
  have hfun : (fun p : Player => ilike p.barUsername username)
      = (fun p : Player => lowered p.barUsername == lowered username) := by
    funext p
    exact ilike_noWild p.barUsername username h
  rw [hfun]

/-- C8 witness: a wildcard-free query "ALICE" resolves by case-insensitive
equality. -/
theorem c8_witness :
    updateuser_lookup
        [⟨1, "u", "alice", 5, Option.none, Option.none, Option.none, Option.none⟩] "ALICE"
      = [⟨1, "u", "alice", 5, Option.none, Option.none, Option.none,
          Option.none⟩].find? (fun p => lowered p.barUsername == lowered "ALICE") :=
  c8_amended _ "ALICE" (by decide)

/-- C9: the leaderboard is the stable descending sort of the per-player
entries: an absent rating is replaced by 0 when the entry is built, the
output is sorted by skill descending, and for every key the entries with
that key appear in exactly their pre-sort relative order (stability) — in
particular all players tied at 0, including every unrated player, keep
their prior relative order. -/
theorem c9_leaderboard (store : List Player) :
    get_leaderboard_data store
        = sortDesc ((get_all_players store).map fun kv => toEntry kv.2)
    ∧ (get_leaderboard_data store).Pairwise (fun a b => b.skill ≤ a.skill)
    ∧ (∀ k : Rat,
        (get_leaderboard_data store).filter (fun e => e.skill == k)
          = ((get_all_players store).map fun kv => toEntry kv.2).filter
              (fun e => e.skill == k))
    ∧ (∀ info : PlayerInfo, (toEntry info).skill = info.skill.getD 0) := by
  refine ⟨rfl, sortDesc_pairwise _, ?_, fun info => rfl⟩
  intro k
  exact filter_sortDesc k _

/-- C10 counterexample: player A with stored rating −5 and unrated player B.
With the negative rating, the leaderboard orders B before A; with A's rating
absent it orders A before B — so a negative stored rating is ordered
differently from an absent one (while both display "Unranked"),
contradicting the claim for negative ratings. -/
theorem c10_counterexample :
    (get_leaderboard_data
        [⟨1, "ua", "A", 0, Option.none, some (-5), Option.none, Option.none⟩,
         ⟨2, "ub", "B", 0, Option.none, Option.none, Option.none, Option.none⟩]).map
        (fun e => e.barUsername)
      = ["B", "A"]
    ∧ (get_leaderboard_data
        [⟨1, "ua", "A", 0, Option.none, Option.none, Option.none, Option.none⟩,
         ⟨2, "ub", "B", 0, Option.none, Option.none, Option.none, Option.none⟩]).map
        (fun e => e.barUsername)
      = ["A", "B"]
    ∧ skill_text (-5) = SkillText.unranked := by
  decide

/-- C10 (amended): a stored rating of exactly 0 is indistinguishable from an
absent rating throughout the leaderboard pipeline (replacing one by the
other changes nothing), and the renderer shows "Unranked" for every skill
value not strictly greater than 0; but a present rating keeps its actual
value as sort key — so a negative rating sorts below the 0/absent group even
though it also displays "Unranked". -/
theorem c10_amended :
    (∀ (pre post : List Player) (p : Player), p.skill = some 0 →
      get_leaderboard_data (pre ++ p :: post)
        = get_leaderboard_data (pre ++ { p with skill := Option.none } :: post))
    ∧ (∀ q : Rat, q ≤ 0 → skill_text q = SkillText.unranked)
    ∧ (∀ (info : PlayerInfo) (q : Rat), info.skill = some q → (toEntry info).skill = q)
    ∧ (∀ info : PlayerInfo, info.skill = Option.none → (toEntry info).skill = 0) := by
  refine ⟨?_, ?_, ?_, ?_⟩
  · intro pre post p hp
    unfold get_leaderboard_data
    congr 1
    apply entries_eq_of_relMap
    unfold get_all_players
    rw [List.foldl_append, List.foldl_append]
    simp only [List.foldl_cons]
    apply relMap_foldl
    apply relMap_dictInsert
    · simp [toEntry, playerInfo, hp]
    · rfl
  · intro q hq
    unfold skill_text
    rw [if_neg (not_lt.mpr hq)]
  · intro info q h
    simp [toEntry, h]
  · intro info h
    simp [toEntry, h]

/-- C10 witness: the amended claim at a concrete rated-0 player and at the
concrete negative display value −1. -/
theorem c10_witness :
    get_leaderboard_data
        ([] ++ (⟨1, "u", "z", 0, Option.none, some 0, Option.none, Option.none⟩ : Player) :: [])
      = get_leaderboard_data
          ([] ++ ({ (⟨1, "u", "z", 0, Option.none, some 0, Option.none, Option.none⟩ : Player)
              with skill := Option.none }) :: [])
    ∧ skill_text (-1) = SkillText.unranked :=
  ⟨c10_amended.1 [] [] ⟨1, "u", "z", 0, Option.none, some 0, Option.none, Option.none⟩ rfl,
   c10_amended.2.1 (-1) (by norm_num)⟩

/-- C1 counterexample: a player stored with rating 10/uncertainty 2/update
time 5 gets a NoData fetch outcome — the upstream lookup succeeds and finds
the player but there is no large-team (gamemode 3) skill entry — yet
`refresh_all_player_stats` overwrites the stored triple, erasing the rating
and uncertainty and stamping a new `lastStatsUpdate`, contradicting the
claim that NoData leaves the stored fields exactly as they were. -/
theorem c1_counterexample :
    (refresh_all_player_stats
        [⟨1, "u", "alice", 5, Option.none, some 10, some 2, some 5⟩]
        (fun _ => HttpResp.body (.list [.dict [("username", .str "alice"),
          ("skill", .list [])]]))
        99 Option.none).1
      = [⟨1, "u", "alice", 5, Option.none, Option.none, Option.none, some 99⟩]
    ∧ fetch_failed (HttpResp.body (.list [.dict [("username", .str "alice"),
        ("skill", .list [])]])) = false
    ∧ (update_single_player_stats { discordId := 1, barUsername := "alice" }
        (HttpResp.body (.list [.dict [("username", .str "alice"),
          ("skill", .list [])]]))).map (fun u => pyToOptRat u.skill)
      = some Option.none := by
  decide

/-- C1 (amended): only a per-player task that yields no result dict — an
upstream failure or a player-not-found outcome — leaves that player's stored
`skill`/`skillUncertainty`/`lastStatsUpdate` untouched (both in the batch
refresh and in the single-player update); a success outcome carrying a found
player always mutates the stored triple, even when it carries no rating. -/
theorem c1_amended :
    (∀ (store : List Player) (env : String → HttpResp) (now : Nat) (p : Player),
      (store.map Player.discordId).Nodup → p ∈ store →
      update_single_player_stats { discordId := p.discordId, barUsername := p.barUsername }
        (env p.barUsername) = Option.none →
      (refresh_all_player_stats store env now Option.none).1.find?
          (fun q => q.discordId == p.discordId) = some p)
    ∧ (∀ (store : List Player) (username : String) (resp : HttpResp) (now : Nat),
        fetchFoundPlayer resp = false → updateuser_apply store username resp now = store) := by
  constructor
  · intro store env now p hnd hp hnone
    have hlen : ¬ store.length = 0 := by
      intro hl
      rw [List.length_eq_zero.mp hl] at hp
      simp at hp
    have hne : ∀ y, GatherItem.ok y ∈ gather_results store env →
        y.discordId ≠ p.discordId := by
      intro y hy hyx
      rcases gather_ok_mem store env y hy with ⟨q, hq, hupd⟩
      obtain ⟨hid, _⟩ := update_single_some _ _ _ hupd
      have hid' : y.discordId = q.discordId := hid
      have hqp : q = p := List.inj_on_of_nodup_map hnd hq hp (by rw [← hid']; exact hyx)
      rw [hqp] at hupd
      rw [hnone] at hupd
      exact Option.noConfusion hupd
    unfold refresh_all_player_stats
    simp only [hlen, if_false]
    rw [applyResults_find?_frame now (gather_results store env) store 0 0 p.discordId hne]
    exact find?_self_of_nodup store p hnd hp
  · intro store username resp now hnf
    unfold updateuser_apply
    cases updateuser_lookup store username with
    | none => rfl
    | some player =>
      simp only []
      cases hub : updBody ⟨player.discordId, player.barUsername⟩ resp with
      | error e => rfl
      | ok r =>
        cases r with
        | none => rfl
        | some u => exact absurd hub (updBody_not_some _ resp hnf u)

/-- C1 witness: a transport failure for the single stored player leaves the
stored record (rating 10 at time 5) exactly as it was, and a failed fetch
in the single-player update commits nothing. -/
theorem c1_witness :
    (refresh_all_player_stats
        [⟨1, "u", "alice", 5, Option.none, some 10, some 2, some 5⟩]
        (fun _ => HttpResp.exn "boom") 0 Option.none).1.find?
        (fun q => q.discordId ==
          (⟨1, "u", "alice", 5, Option.none, some 10, some 2, some 5⟩ : Player).discordId)
      = some ⟨1, "u", "alice", 5, Option.none, some 10, some 2, some 5⟩
    ∧ updateuser_apply [] "x" (HttpResp.exn "boom") 0 = [] := by
  constructor
  · exact c1_amended.1 _ _ 0 _ (by decide) (by decide) (by rfl)
  · exact c1_amended.2 [] "x" (HttpResp.exn "boom") 0 (by rfl)

/-- C2 counterexample: one stored player whose upstream lookup succeeds but
returns an empty candidate list (NotFound, not an upstream error): the
summary reports `failed = 1` although there is no Failure (upstream-error)
outcome, contradicting the claim that `failed` counts Failure outcomes
only. -/
theorem c2_counterexample :
    (refresh_all_player_stats
        [⟨1, "u", "ghost", 0, Option.none, Option.none, Option.none, Option.none⟩]
        (fun _ => HttpResp.body (.list [])) 0 Option.none).2
      = ⟨1, 0, 1, Option.none⟩
    ∧ fetch_failed (HttpResp.body (.list [])) = false := by
  decide

/-- C2 (amended): with a successful commit, the summary's `total` is exactly
the number of input players, `updated` counts the tasks that returned a
success dict (player found, possibly without a rating), `failed` counts
every other task (upstream failures, not-found results and captured
exceptions alike), `updated + failed = total`, no error is reported; and for
zero players every field is zero rather than an error. -/
theorem c2_amended :
    (∀ (store : List Player) (env : String → HttpResp) (now : Nat),
      (refresh_all_player_stats store env now Option.none).2.total = store.length
      ∧ (refresh_all_player_stats store env now Option.none).2.updated
          = (gather_results store env).countP isOkSucc
      ∧ (refresh_all_player_stats store env now Option.none).2.failed
          = (gather_results store env).countP isFailItem
      ∧ (refresh_all_player_stats store env now Option.none).2.updated
          + (refresh_all_player_stats store env now Option.none).2.failed
          = store.length
      ∧ (refresh_all_player_stats store env now Option.none).2.error = Option.none)
    ∧ (∀ (env : String → HttpResp) (now : Nat) (ce : Option String),
        refresh_all_player_stats [] env now ce = ([], ⟨0, 0, 0, Option.none⟩)) := by
  constructor
  · intro store env now
    by_cases h0 : store.length = 0
    · have hnil : store = [] := List.length_eq_zero.mp h0
      subst hnil
      simp [refresh_all_player_stats, gather_results]
    · have hmem : ∀ x, GatherItem.ok x ∈ gather_results store env → x.success = true →
          x.discordId ∈ store.map Player.discordId := by
        intro x hx _
        rcases gather_ok_mem store env x hx with ⟨q, hq, hupd⟩
        obtain ⟨hid, _⟩ := update_single_some _ _ _ hupd
        rw [hid]
        exact List.mem_map_of_mem _ hq
      obtain ⟨h1, h2, _⟩ := applyResults_counts now (gather_results store env) store 0 0 hmem
      have hsum : (refresh_all_player_stats store env now Option.none).2
          = ⟨store.length,
             (applyResults now (store, 0, 0) (gather_results store env)).2.1,
             (applyResults now (store, 0, 0) (gather_results store env)).2.2,
             Option.none⟩ := by
        unfold refresh_all_player_stats
        simp [h0]
      rw [hsum]
      refine ⟨rfl, by simpa using h1, by simpa using h2, ?_, rfl⟩
      rw [h1, h2]
      simp only [Nat.zero_add]
      rw [countP_ok_fail]
      simp [gather_results]
  · intro env now ce
    rfl

/-- C3 counterexample: a fully unrated stored player (all three rating
fields absent, the invariant holding) receives a found-player fetch with no
large-team entry; the refresh stamps `lastStatsUpdate` while leaving the
rating absent, producing a row with `lastRatingUpdateAt` set but `rating`
absent — the partially-updated state the claim says is unreachable. -/
theorem c3_counterexample :
    (refresh_all_player_stats
        [⟨1, "u", "alice", 5, Option.none, Option.none, Option.none, Option.none⟩]
        (fun _ => HttpResp.body (.list [.dict [("username", .str "alice"),
          ("skill", .list [])]]))
        99 Option.none).1
      = [⟨1, "u", "alice", 5, Option.none, Option.none, Option.none, some 99⟩]
    ∧ (⟨1, "u", "alice", 5, Option.none, Option.none, Option.none,
        some 99⟩ : Player).lastStatsUpdate.isSome = true
    ∧ (⟨1, "u", "alice", 5, Option.none, Option.none, Option.none,
        some 99⟩ : Player).skill.isNone = true := by
  decide

/-- C3 (amended): only one direction of the atomicity invariant holds: along
any sequence of store operations (registration upsert, batch refresh,
single-player update), every row that has a rating also has a stats
timestamp — a rating is never written without stamping `lastStatsUpdate` —
but the converse is not maintained (see the counterexample: a timestamp can
be stamped while the rating is cleared). -/
theorem c3_amended (ops : List StoreOp) (store : List Player)
    (h : ∀ p ∈ store, ratingTimestamped p) :
    ∀ q ∈ ops.foldl applyOp store, ratingTimestamped q := by
  induction ops generalizing store with
  | nil => exact h
  | cons op rest ih =>
    simp only [List.foldl_cons]
    apply ih
    cases op with
    | register id du bu rb sk su now =>
      exact save_ratingTimestamped store id du bu rb sk su now h
    | refreshAll env now ce => exact refresh_ratingTimestamped store env now ce h
    | updateOne u resp now => exact updateuser_ratingTimestamped store u resp now h

/-- C3 witness: registering a rated player into the empty store yields a row
whose rating is accompanied by a stats timestamp. -/
theorem c3_witness :
    ratingTimestamped ⟨1, "u", "alice", 7, Option.none, some 10, some 2, some 7⟩ :=
  c3_amended [StoreOp.register 1 "u" "alice" Option.none (some 10) (some 2) 7] []
    (by simp) ⟨1, "u", "alice", 7, Option.none, some 10, some 2, some 7⟩ (by decide)

/-- C6: failure isolation in the refresh result loop — inserting a failed
task anywhere into the gather result list (a captured exception or a `None`
result) leaves the resulting store and the updated count of all the other
tasks unchanged and only increments the failed count by one, and the gather
list always contains exactly one awaited item per input player, so no task's
outcome is skipped and no individual failure aborts the run. -/
theorem c6_isolation :
    (∀ (now : Nat) (st : List Player) (u f : Nat) (rs1 rs2 : List GatherItem) (msg : String),
      applyResults now (st, u, f) (rs1 ++ GatherItem.raised msg :: rs2)
        = ((applyResults now (st, u, f) (rs1 ++ rs2)).1,
           (applyResults now (st, u, f) (rs1 ++ rs2)).2.1,
           (applyResults now (st, u, f) (rs1 ++ rs2)).2.2 + 1))
    ∧ (∀ (now : Nat) (st : List Player) (u f : Nat) (rs1 rs2 : List GatherItem),
      applyResults now (st, u, f) (rs1 ++ GatherItem.pyNone :: rs2)
        = ((applyResults now (st, u, f) (rs1 ++ rs2)).1,
           (applyResults now (st, u, f) (rs1 ++ rs2)).2.1,
           (applyResults now (st, u, f) (rs1 ++ rs2)).2.2 + 1))
    ∧ (∀ (store : List Player) (env : String → HttpResp),
        (gather_results store env).length = store.length) := by
  refine ⟨?_, ?_, ?_⟩
  · intro now st u f rs1 rs2 msg
    exact applyResults_insert_fail now (GatherItem.raised msg) (fun acc => rfl) rs1 rs2 st u f
  · intro now st u f rs1 rs2
    exact applyResults_insert_fail now GatherItem.pyNone (fun acc => rfl) rs1 rs2 st u f
  · intro store env
    simp [gather_results]
